import Mathlib

/-!
Shallow embedding of the TAP adapter subsystem of `indexer-service-rs`
(`src/tap/src/receipt_storage_adapter.rs`, `receipt_checks_adapter.rs`,
`rav_storage_adapter.rs`, `collateral_adapter.rs`) together with theorems
settling the specification claims about it.

Modelling conventions:
- Ethereum `Address` values and signature byte strings are modelled by `Nat`
  (the code only ever stores and compares their `to_string()` forms, so any
  type with decidable equality is faithful).
- `u64` / `u128` machine integers are modelled by `Nat`; none of the embedded
  operations performs wrapping arithmetic on them.
- The Postgres `scalar_tap_receipts` table is a list of rows, each row holding
  the separately stored columns `(id, signature, allocation_id, timestamp_ns,
  received_receipt)` exactly as the INSERT in `store_receipt` populates them.
- `BigDecimal` timestamps inside the Postgres `numrange` are modelled by `Int`
  (the conversion `BigDecimal::from(u64)` is an order-embedding).
- Fallible Rust functions returning `Result` are modelled with `Except`;
  a `.unwrap()` panic on `None` is modelled by an `Option` result being `none`.
-/

namespace Tap

/-- `Receipt` message payload: `{ allocation_id, nonce, timestamp_ns, value }`. -/
structure Receipt where
  allocation_id : Nat
  nonce : Nat
  timestamp_ns : Nat
  value : Nat
  deriving DecidableEq, Repr

/-- `EIP712SignedMessage<T>`: a payload together with its signature
(the code stores and compares `signature.to_string()`, modelled by `Nat`). -/
structure EIP712SignedMessage (T : Type) where
  message : T
  signature : Nat
  deriving DecidableEq, Repr

/-- `ReceivedReceipt`: the stored enriched form of a signed receipt.  Only the
fields the adapters inspect are carried: the signed receipt itself and the
`query_id`; the check-result bookkeeping lives opaquely inside the serialized
payload and never influences any adapter. -/
structure ReceivedReceipt where
  signed_receipt : EIP712SignedMessage Receipt
  query_id : Nat
  deriving DecidableEq, Repr

/-- One row of the `scalar_tap_receipts` table: the serial primary key and the
separately stored `signature`, `allocation_id` and `timestamp_ns` columns next
to the serialized `received_receipt` payload. -/
structure ReceiptRow where
  id : Nat
  signature : Nat
  allocation_id : Nat
  timestamp_ns : Nat
  received_receipt : ReceivedReceipt
  deriving DecidableEq, Repr

/-- The `scalar_tap_receipts` table: its rows plus the next value of the
`BIGSERIAL` id sequence. -/
structure ReceiptsTable where
  rows : List ReceiptRow
  next_id : Nat
  deriving DecidableEq, Repr

/-- Rust `Bound<u64>` (`std::ops::Bound`). -/
inductive Bound (α : Type) where
  | included (a : α)
  | excluded (a : α)
  | unbounded
  deriving DecidableEq, Repr

/-- A Rust `RangeBounds<u64>` value, reduced to its two bounds (which is all
`rangebounds_to_pgrange` reads from it). -/
structure TimestampRange where
  start_bound : Bound Nat
  end_bound : Bound Nat
  deriving DecidableEq, Repr

/-- `PgRange<BigDecimal>` as handed to Postgres, with `BigDecimal` modelled
by `Int`. -/
structure PgRange where
  lower : Bound Int
  upper : Bound Int
  deriving DecidableEq, Repr

/-- `u64_bound_to_bigdecimal_bound`: convert `Bound<u64>` to
`Bound<BigDecimal>` via `BigDecimal::from`. -/
def u64_bound_to_bigdecimal_bound : Bound Nat → Bound Int
  | .included val => .included (Int.ofNat val)
  | .excluded val => .excluded (Int.ofNat val)
  | .unbounded => .unbounded

/-- `rangebounds_to_pgrange`: convert a `RangeBounds<u64>` to
`PgRange<BigDecimal>` bound by bound. -/
def rangebounds_to_pgrange (range : TimestampRange) : PgRange :=
  { lower := u64_bound_to_bigdecimal_bound range.start_bound
    upper := u64_bound_to_bigdecimal_bound range.end_bound }

/-- Postgres `numrange @> point` containment: the point must satisfy the lower
bound and the upper bound of the range. -/
def PgRange.containsPoint (r : PgRange) (x : Int) : Bool :=
  (match r.lower with
    | .included a => a ≤ x
    | .excluded a => a < x
    | .unbounded => true)
  &&
  (match r.upper with
    | .included a => x ≤ a
    | .excluded a => x < a
    | .unbounded => true)

/-- `store_receipt`: INSERT the receipt with its signature, the adapter's
`allocation_id` and the receipt's `timestamp_ns` into `scalar_tap_receipts`,
RETURNING the freshly assigned serial id. -/
def store_receipt (allocation_id : Nat) (table : ReceiptsTable)
    (receipt : ReceivedReceipt) : ReceiptsTable × Nat :=
  let row : ReceiptRow :=
    { id := table.next_id
      signature := receipt.signed_receipt.signature
      allocation_id := allocation_id
      timestamp_ns := receipt.signed_receipt.message.timestamp_ns
      received_receipt := receipt }
  ({ rows := table.rows ++ [row], next_id := table.next_id + 1 }, table.next_id)

/-- `retrieve_receipts_in_timestamp_range`: SELECT `(id, received_receipt)`
FROM `scalar_tap_receipts` WHERE `allocation_id = $1 AND $2::numrange @>
timestamp_ns`, with `$2` produced by `rangebounds_to_pgrange`. -/
def retrieve_receipts_in_timestamp_range (allocation_id : Nat)
    (table : ReceiptsTable) (timestamp_range_ns : TimestampRange) :
    List (Nat × ReceivedReceipt) :=
  (table.rows.filter fun row =>
      row.allocation_id == allocation_id
        && (rangebounds_to_pgrange timestamp_range_ns).containsPoint
             (Int.ofNat row.timestamp_ns)).map
    fun row => (row.id, row.received_receipt)

/-- `remove_receipts_in_timestamp_range`: DELETE FROM `scalar_tap_receipts`
WHERE `$1::numrange @> timestamp_ns` — note the WHERE clause carries no
`allocation_id` condition. -/
def remove_receipts_in_timestamp_range (table : ReceiptsTable)
    (timestamp_ns : TimestampRange) : ReceiptsTable :=
  { table with
    rows := table.rows.filter fun row =>
      !(rangebounds_to_pgrange timestamp_ns).containsPoint
          (Int.ofNat row.timestamp_ns) }

/-- Specification-side interval membership, written from the spec's words:
"a point is included iff it satisfies both bounds independently", with the
standard mathematical reading of inclusive / exclusive / unbounded bounds
over the `u64` domain.  This is deliberately NOT derived from the code; the
range-correctness claim compares the code's behaviour against it. -/
def specSatisfiesStart : Bound Nat → Nat → Prop
  | .included a, t => a ≤ t
  | .excluded a, t => a < t
  | .unbounded, _ => True

def specSatisfiesEnd : Bound Nat → Nat → Prop
  | .included a, t => t ≤ a
  | .excluded a, t => t < a
  | .unbounded, _ => True

instance : (b : Bound Nat) → (t : Nat) → Decidable (specSatisfiesStart b t)
  | .included a, t => inferInstanceAs (Decidable (a ≤ t))
  | .excluded a, t => inferInstanceAs (Decidable (a < t))
  | .unbounded, _ => inferInstanceAs (Decidable True)

instance : (b : Bound Nat) → (t : Nat) → Decidable (specSatisfiesEnd b t)
  | .included a, t => inferInstanceAs (Decidable (t ≤ a))
  | .excluded a, t => inferInstanceAs (Decidable (t < a))
  | .unbounded, _ => inferInstanceAs (Decidable True)

def specIntervalContains (range : TimestampRange) (t : Nat) : Prop :=
  specSatisfiesStart range.start_bound t ∧ specSatisfiesEnd range.end_bound t

instance (range : TimestampRange) (t : Nat) :
    Decidable (specIntervalContains range t) :=
  inferInstanceAs (Decidable (_ ∧ _))

/-- `sqlx::Error` as far as the adapters distinguish it: the dedicated
`RowNotFound` value produced when `fetch_one` matches no row, and every other
storage failure carrying its display message. -/
inductive SqlxError where
  | rowNotFound
  | other (msg : String)
  deriving DecidableEq, Repr

/-- The display message of a `sqlx::Error` (`error.to_string()`); sqlx renders
`RowNotFound` with the fixed message below. -/
def SqlxError.toMessage : SqlxError → String
  | .rowNotFound => "no rows returned by a query that expected to return at least one row"
  | .other msg => msg

/-- The adapters' `AdapterError` enum: a single variant
`AdapterError { error: String }`. -/
inductive AdapterError where
  | adapterError (error : String)
  deriving DecidableEq, Repr

/-- `impl From<sqlx::Error> for AdapterError`: wrap the stringified error into
the single `AdapterError` variant. -/
def adapterErrorFromSqlx (e : SqlxError) : AdapterError :=
  .adapterError e.toMessage

/-- `update_receipt_by_id`: UPDATE `scalar_tap_receipts` SET `received_receipt
= $1` WHERE `id = $2` RETURNING `id`, through `fetch_one` — which yields
`sqlx::Error::RowNotFound` (converted by `From`) when no row matches. -/
def update_receipt_by_id (table : ReceiptsTable) (receipt_id : Nat)
    (receipt : ReceivedReceipt) : Except AdapterError ReceiptsTable :=
  if table.rows.any (fun row => row.id == receipt_id) then
    .ok { table with
           rows := table.rows.map fun row =>
             if row.id == receipt_id then { row with received_receipt := receipt }
             else row }
  else
    .error (adapterErrorFromSqlx .rowNotFound)

/-- `ReceiptChecksAdapter.is_unique`: SELECT `id` FROM `scalar_tap_receipts`
WHERE `id != $1 and signature = $2` LIMIT 1, `fetch_optional`; the check
passes exactly when the result `is_none()`. -/
def is_unique (table : ReceiptsTable) (receipt : EIP712SignedMessage Receipt)
    (receipt_id : Nat) : Bool :=
  (table.rows.find? fun row =>
      row.id != receipt_id && row.signature == receipt.signature).isNone

/-- `ReceiptChecksAdapter.is_valid_value`: look the query up in the
`query_appraisals` map and compare; the `.unwrap()` on a missing entry is a
panic, modelled as the `none` outcome (distinct from both `some false` and
`some true`). The appraisal `HashMap<u64, u128>` is modelled as an
association list. -/
def is_valid_value (query_appraisals : List (Nat × Nat)) (value : Nat)
    (query_id : Nat) : Option Bool :=
  match query_appraisals.lookup query_id with
  | none => none
  | some appraised_value =>
    if value != appraised_value then some false else some true

/-- `ReceiptAggregateVoucher` message payload. -/
structure ReceiptAggregateVoucher where
  allocation_id : Nat
  timestamp_ns : Nat
  value_aggregate : Nat
  deriving DecidableEq, Repr

/-- `SignedRAV = EIP712SignedMessage<ReceiptAggregateVoucher>`. -/
abbrev SignedRAV := EIP712SignedMessage ReceiptAggregateVoucher

/-- The `scalar_tap_latest_rav` table, `allocation_id` its primary key:
an association list from allocation id to the stored `latest_rav` payload. -/
abbrev RavTable := List (Nat × SignedRAV)

/-- INSERT .. ON CONFLICT (`allocation_id`) DO UPDATE SET `latest_rav`:
replace the row for the key when present, insert it otherwise. -/
def ravTableUpsert (table : RavTable) (allocation_id : Nat) (rav : SignedRAV) :
    RavTable :=
  if table.any (fun p => p.1 == allocation_id) then
    table.map fun p => if p.1 == allocation_id then (p.1, rav) else p
  else
    table ++ [(allocation_id, rav)]

/-- `RAVStorageAdapter` state: the durable `scalar_tap_latest_rav` table, the
in-memory `local_rav_storage` cache, and the adapter's allocation id. -/
structure RAVStorageAdapter where
  ravTable : RavTable
  local_rav_storage : Option SignedRAV
  allocation_id : Nat
  deriving DecidableEq, Repr

/-- `update_last_rav`: durably upsert the RAV for this allocation.  The
in-memory `local_rav_storage` cache is NOT written by this function. -/
def update_last_rav (s : RAVStorageAdapter) (rav : SignedRAV) :
    RAVStorageAdapter × Except AdapterError Unit :=
  ({ s with ravTable := ravTableUpsert s.ravTable s.allocation_id rav }, .ok ())

/-- `last_rav`: return the in-memory cached value; no durable read. -/
def last_rav (s : RAVStorageAdapter) : Except AdapterError (Option SignedRAV) :=
  .ok s.local_rav_storage

/-- `retrieve_last_rav` (via `retrieve_last_rav_static`): SELECT `latest_rav`
WHERE `allocation_id = $1` with `fetch_optional`; when a row exists its value
replaces the cache, otherwise the cache is left untouched. -/
def retrieve_last_rav (s : RAVStorageAdapter) : RAVStorageAdapter :=
  match s.ravTable.lookup s.allocation_id with
  | some latest_rav => { s with local_rav_storage := some latest_rav }
  | none => s

/-- One `listener.recv()` outcome inside the watcher loop. -/
inductive RecvEvent where
  | newRav        -- recv returned Ok(some notification)
  | channelError  -- recv returned Err(..): the channel failed
  deriving DecidableEq, Repr

/-- Whether the watcher task is still alive after processing a finite prefix
of its event stream. -/
inductive WatcherOutcome where
  | terminated  -- the task propagated an Err and returned: it is gone
  | running     -- the task is still inside its loop awaiting the next event
  deriving DecidableEq, Repr

/-- The `loop` body of `rav_notifications_watcher`: each successful `recv`
triggers `retrieve_last_rav_static`; an `Err` from `recv` hits the `?`
operator and makes the task return (no retry, no resubscription — the
source marks this with a TODO). -/
def watcherLoop : List RecvEvent → RAVStorageAdapter →
    RAVStorageAdapter × WatcherOutcome
  | [], s => (s, .running)
  | .newRav :: rest, s => watcherLoop rest (retrieve_last_rav s)
  | .channelError :: _, s => (s, .terminated)

/-- `rav_notifications_watcher`: `PgListener::connect_with(..).await?`, then
`listener.listen(..).await?`, then the receive loop.  A failure of either
setup step also makes the task return through `?`. -/
def rav_notifications_watcher (connect_ok listen_ok : Bool)
    (events : List RecvEvent) (s : RAVStorageAdapter) :
    RAVStorageAdapter × WatcherOutcome :=
  if !connect_ok then (s, .terminated)
  else if !listen_ok then (s, .terminated)
  else watcherLoop events s

/-- `u128::MAX`. -/
def u128MAX : Nat := 2 ^ 128 - 1

/-- `CollateralAdapter` state: the (never consulted) local collateral map. -/
structure CollateralAdapter where
  gateway_collateral_storage : List (Nat × Nat)
  deriving DecidableEq, Repr

/-- `get_available_collateral`: the mock implementation ignores its gateway
argument and state and returns `Ok(u128::MAX)`. -/
def get_available_collateral (_s : CollateralAdapter) (_gateway_id : Nat) :
    Except AdapterError Nat :=
  .ok u128MAX

/-- `subtract_collateral`: the mock implementation ignores its arguments,
changes nothing and returns `Ok(())`. -/
def subtract_collateral (s : CollateralAdapter) (_gateway_id : Nat)
    (_value : Nat) : CollateralAdapter × Except AdapterError Unit :=
  (s, .ok ())

/-- N sequential `update_last_rav` calls, in call order. -/
def applyUpdates (s : RAVStorageAdapter) (ravs : List SignedRAV) :
    RAVStorageAdapter :=
  ravs.foldl (fun s rav => (update_last_rav s rav).1) s

/-! ### Helper lemmas shared by the claim theorems -/

/-- The lossless-translation lemma: the Postgres containment test
`rangebounds_to_pgrange range @> BigDecimal::from(t)` agrees with the
spec-side mathematical interval membership on the `u64` domain. -/
theorem pgContains_iff_specIntervalContains (range : TimestampRange) (t : Nat) :
    ((rangebounds_to_pgrange range).containsPoint (Int.ofNat t) = true) ↔
      specIntervalContains range t := by
  rcases range with ⟨s, e⟩
  rcases s with a | a | _ <;> rcases e with b | b | _ <;>
    simp [rangebounds_to_pgrange, u64_bound_to_bigdecimal_bound,
      PgRange.containsPoint, specIntervalContains, specSatisfiesStart,
      specSatisfiesEnd]

/-- `is_unique` passes exactly when no other stored row carries the probe's
signature. -/
theorem is_unique_eq_true_iff (table : ReceiptsTable)
    (receipt : EIP712SignedMessage Receipt) (receipt_id : Nat) :
    is_unique table receipt receipt_id = true ↔
      ∀ row ∈ table.rows, row.id ≠ receipt_id →
        row.signature ≠ receipt.signature := by
  unfold is_unique
  rw [Option.isNone_iff_eq_none, List.find?_eq_none]
  constructor
  · intro h row hm hid
    have := h row hm
    simp only [bne_iff_ne, ne_eq, Bool.and_eq_true, beq_iff_eq] at this
    intro hsig
    exact this ⟨hid, hsig⟩
  · intro h row hm
    simp only [bne_iff_ne, ne_eq, Bool.and_eq_true, beq_iff_eq, not_and]
    intro hid
    exact h row hm hid

/-! ### Claim theorems -/

/-- C1: for every adapter allocation, stored table and timestamp interval
with any combination of inclusive / exclusive / unbounded bounds,
`retrieve_receipts_in_timestamp_range` returns exactly the stored
`(receipt_id, receipt)` pairs of the adapter's allocation whose
`timestamp_ns` lies in the interval under standard mathematical interval
semantics, with no duplicates and no omissions (given that the serial
primary key makes the stored ids distinct). -/
theorem retrieve_receipts_in_timestamp_range_exact (allocation_id : Nat)
    (table : ReceiptsTable) (range : TimestampRange)
    (hids : (table.rows.map ReceiptRow.id).Nodup) :
    (retrieve_receipts_in_timestamp_range allocation_id table range).Nodup
    ∧ ∀ p : Nat × ReceivedReceipt,
        p ∈ retrieve_receipts_in_timestamp_range allocation_id table range ↔
          ∃ row ∈ table.rows, row.allocation_id = allocation_id ∧
            specIntervalContains range row.timestamp_ns ∧
            p = (row.id, row.received_receipt) := by
  constructor
  · have hsub :
        ((table.rows.filter fun row =>
            row.allocation_id == allocation_id
              && (rangebounds_to_pgrange range).containsPoint
                   (Int.ofNat row.timestamp_ns)).map ReceiptRow.id).Sublist
          (table.rows.map ReceiptRow.id) :=
      (List.filter_sublist _).map _
    have hnodupIds := hids.sublist hsub
    have hmapmap :
        ((retrieve_receipts_in_timestamp_range allocation_id table range).map
            Prod.fst)
          = (table.rows.filter fun row =>
              row.allocation_id == allocation_id
                && (rangebounds_to_pgrange range).containsPoint
                     (Int.ofNat row.timestamp_ns)).map ReceiptRow.id := by
      unfold retrieve_receipts_in_timestamp_range
      rw [List.map_map]
      rfl
    exact List.Nodup.of_map Prod.fst (hmapmap ▸ hnodupIds)
  · intro p
    unfold retrieve_receipts_in_timestamp_range
    simp only [List.mem_map, List.mem_filter, Bool.and_eq_true, beq_iff_eq]
    constructor
    · rintro ⟨row, ⟨hm, halloc, hrange⟩, heq⟩
      exact ⟨row, hm, halloc,
        (pgContains_iff_specIntervalContains range row.timestamp_ns).mp hrange,
        heq.symm⟩
    · rintro ⟨row, hm, halloc, hrange, heq⟩
      exact ⟨row, ⟨hm, halloc,
        (pgContains_iff_specIntervalContains range row.timestamp_ns).mpr hrange⟩,
        heq.symm⟩

/-- A small concrete table used by the witnesses: three receipts with
timestamps 42, 45 and 51, the middle one stored under another allocation. -/
def sampleReceived (alloc nonce ts value sig qid : Nat) : ReceivedReceipt :=
  { signed_receipt :=
      { message :=
          { allocation_id := alloc, nonce := nonce, timestamp_ns := ts,
            value := value }
        signature := sig }
    query_id := qid }

def sampleTable : ReceiptsTable :=
  { rows :=
      [ { id := 1, signature := 10, allocation_id := 7, timestamp_ns := 42,
          received_receipt := sampleReceived 7 0 42 124 10 0 }
      , { id := 2, signature := 11, allocation_id := 9, timestamp_ns := 45,
          received_receipt := sampleReceived 9 1 45 125 11 1 }
      , { id := 3, signature := 12, allocation_id := 7, timestamp_ns := 51,
          received_receipt := sampleReceived 7 2 51 126 12 2 } ]
    next_id := 4 }

/-- Witness for C1: the theorem applied to the sample table and the
half-open interval `[45, 51)`. -/
theorem retrieve_receipts_in_timestamp_range_exact_witness :
    (sampleTable.rows.map ReceiptRow.id).Nodup
    ∧ ((retrieve_receipts_in_timestamp_range 7 sampleTable
          ⟨.included 45, .excluded 51⟩).Nodup
        ∧ ∀ p : Nat × ReceivedReceipt,
            p ∈ retrieve_receipts_in_timestamp_range 7 sampleTable
                  ⟨.included 45, .excluded 51⟩ ↔
              ∃ row ∈ sampleTable.rows, row.allocation_id = 7 ∧
                specIntervalContains ⟨.included 45, .excluded 51⟩
                  row.timestamp_ns ∧
                p = (row.id, row.received_receipt)) :=
  ⟨by decide,
    retrieve_receipts_in_timestamp_range_exact 7 sampleTable
      ⟨.included 45, .excluded 51⟩ (by decide)⟩

/-- C3: `is_unique` is true iff no persisted receipt under a different
identifier carries the probe's signature; in particular a receipt stored
once into a table free of its signature passes against its own id
(self-exclusion), and two stored receipts sharing a signature fail against
either of their identifiers. -/
theorem is_unique_correct :
    (∀ (table : ReceiptsTable) (receipt : EIP712SignedMessage Receipt)
        (receipt_id : Nat),
      is_unique table receipt receipt_id = true ↔
        ∀ row ∈ table.rows, row.id ≠ receipt_id →
          row.signature ≠ receipt.signature)
    ∧ (∀ (alloc : Nat) (t : ReceiptsTable) (r : ReceivedReceipt),
      (∀ row ∈ t.rows, row.signature ≠ r.signed_receipt.signature) →
      is_unique (store_receipt alloc t r).1 r.signed_receipt
        (store_receipt alloc t r).2 = true)
    ∧ (∀ (alloc : Nat) (t : ReceiptsTable) (r₁ r₂ : ReceivedReceipt),
      r₁.signed_receipt.signature = r₂.signed_receipt.signature →
      is_unique (store_receipt alloc (store_receipt alloc t r₁).1 r₂).1
          r₁.signed_receipt (store_receipt alloc t r₁).2 = false
      ∧ is_unique (store_receipt alloc (store_receipt alloc t r₁).1 r₂).1
          r₂.signed_receipt
          (store_receipt alloc (store_receipt alloc t r₁).1 r₂).2 = false) := by
  refine ⟨is_unique_eq_true_iff, ?_, ?_⟩
  · intro alloc t r h
    rw [is_unique_eq_true_iff]
    intro row hm hid
    simp only [store_receipt, List.mem_append, List.mem_singleton] at hm
    rcases hm with hm | hm
    · exact h row hm
    · subst hm
      simp [store_receipt] at hid
  · intro alloc t r₁ r₂ hsig
    constructor
    · cases hb : is_unique (store_receipt alloc (store_receipt alloc t r₁).1 r₂).1
          r₁.signed_receipt (store_receipt alloc t r₁).2 with
      | false => rfl
      | true =>
        exfalso
        have h2 := (is_unique_eq_true_iff _ _ _).mp hb
        have hne :=
          h2 { id := t.next_id + 1
               signature := r₂.signed_receipt.signature
               allocation_id := alloc
               timestamp_ns := r₂.signed_receipt.message.timestamp_ns
               received_receipt := r₂ }
            (by simp [store_receipt]) (by simp [store_receipt])
        exact hne hsig.symm
    · cases hb : is_unique (store_receipt alloc (store_receipt alloc t r₁).1 r₂).1
          r₂.signed_receipt
          (store_receipt alloc (store_receipt alloc t r₁).1 r₂).2 with
      | false => rfl
      | true =>
        exfalso
        have h2 := (is_unique_eq_true_iff _ _ _).mp hb
        have hne :=
          h2 { id := t.next_id
               signature := r₁.signed_receipt.signature
               allocation_id := alloc
               timestamp_ns := r₁.signed_receipt.message.timestamp_ns
               received_receipt := r₁ }
            (by simp [store_receipt]) (by simp [store_receipt])
        exact hne hsig

/-- Witness for C3: the self-exclusion part applied to a receipt stored into
the empty table, and the duplicate part applied to two receipts sharing
signature 10. -/
theorem is_unique_correct_witness :
    ((∀ row ∈ (⟨[], 0⟩ : ReceiptsTable).rows,
        row.signature ≠ (sampleReceived 7 0 42 124 10 0).signed_receipt.signature)
      ∧ is_unique (store_receipt 7 ⟨[], 0⟩ (sampleReceived 7 0 42 124 10 0)).1
          (sampleReceived 7 0 42 124 10 0).signed_receipt
          (store_receipt 7 ⟨[], 0⟩ (sampleReceived 7 0 42 124 10 0)).2 = true)
    ∧ ((sampleReceived 7 0 42 124 10 0).signed_receipt.signature
          = (sampleReceived 7 1 43 125 10 1).signed_receipt.signature
      ∧ is_unique
          (store_receipt 7 (store_receipt 7 ⟨[], 0⟩
              (sampleReceived 7 0 42 124 10 0)).1
            (sampleReceived 7 1 43 125 10 1)).1
          (sampleReceived 7 0 42 124 10 0).signed_receipt
          (store_receipt 7 ⟨[], 0⟩ (sampleReceived 7 0 42 124 10 0)).2 = false) :=
  ⟨⟨by simp, is_unique_correct.2.1 7 ⟨[], 0⟩ _ (by simp)⟩,
    ⟨rfl, (is_unique_correct.2.2 7 ⟨[], 0⟩ (sampleReceived 7 0 42 124 10 0)
      (sampleReceived 7 1 43 125 10 1) rfl).1⟩⟩

/-- C4: `is_valid_value v q` yields `some true` exactly when the appraisal
table records `v` for `q`, `some false` exactly when it records a different
value, and on a missing appraisal it neither returns `true` nor `false` but
fails closed with the `.unwrap()` panic, modelled as the `none` outcome —
an outcome distinct by constructor from the value-mismatch `some false`. -/
theorem is_valid_value_gating (query_appraisals : List (Nat × Nat))
    (value query_id : Nat) :
    (is_valid_value query_appraisals value query_id = some true ↔
      query_appraisals.lookup query_id = some value)
    ∧ (is_valid_value query_appraisals value query_id = none ↔
      query_appraisals.lookup query_id = none)
    ∧ (is_valid_value query_appraisals value query_id = some false ↔
      ∃ a, query_appraisals.lookup query_id = some a ∧ a ≠ value) := by
  unfold is_valid_value
  cases h : query_appraisals.lookup query_id with
  | none => simp
  | some a =>
    refine ⟨?_, by by_cases hv : value = a <;> simp [bne_iff_ne, hv], ?_⟩
    · by_cases hv : value = a
      · subst hv
        simp
      · simp [bne_iff_ne, hv, Ne.symm hv]
    · by_cases hv : value = a
      · subst hv
        simp
      · simp [bne_iff_ne, hv, Ne.symm hv]

/-! ### RAV cache lemmas -/

theorem lookup_cons_self_rav (k : Nat) (v : SignedRAV) (t : RavTable) :
    List.lookup k ((k, v) :: t) = some v := by
  simp [List.lookup_cons]

theorem lookup_cons_ne_rav (k k1 : Nat) (v : SignedRAV) (t : RavTable)
    (h : k ≠ k1) :
    List.lookup k ((k1, v) :: t) = List.lookup k t := by
  simp [List.lookup_cons, beq_false_of_ne h]

theorem lookup_map_replace (t : RavTable) (k : Nat) (rav : SignedRAV)
    (h : t.any (fun p => p.1 == k) = true) :
    (t.map fun p => if p.1 == k then (p.1, rav) else p).lookup k = some rav := by
  induction t with
  | nil => simp at h
  | cons hd tl ih =>
    obtain ⟨k1, v1⟩ := hd
    simp only [List.map_cons]
    by_cases hk : k1 = k
    · subst hk
      rw [if_pos (by simp)]
      exact lookup_cons_self_rav k1 rav _
    · rw [if_neg (by simpa using hk),
        lookup_cons_ne_rav _ _ _ _ (Ne.symm hk)]
      apply ih
      simp only [List.any_cons, Bool.or_eq_true, beq_iff_eq] at h
      exact h.resolve_left hk

theorem lookup_append_single (t : RavTable) (k : Nat) (rav : SignedRAV)
    (h : t.any (fun p => p.1 == k) = false) :
    (t ++ [(k, rav)]).lookup k = some rav := by
  induction t with
  | nil => exact lookup_cons_self_rav k rav []
  | cons hd tl ih =>
    obtain ⟨k1, v1⟩ := hd
    simp only [List.any_cons, Bool.or_eq_false_iff, beq_eq_false_iff_ne, ne_eq]
      at h
    rw [List.cons_append, lookup_cons_ne_rav _ _ _ _ (Ne.symm h.1)]
    exact ih h.2

/-- After the upsert the table's row for the key holds exactly the new RAV. -/
theorem ravTableUpsert_lookup (t : RavTable) (k : Nat) (rav : SignedRAV) :
    (ravTableUpsert t k rav).lookup k = some rav := by
  unfold ravTableUpsert
  by_cases h : t.any (fun p => p.1 == k) = true
  · rw [if_pos h]
    exact lookup_map_replace t k rav h
  · rw [if_neg h]
    exact lookup_append_single t k rav (Bool.eq_false_iff.mpr h)

/-- A sample RAV and adapter state used by witnesses and counterexamples. -/
def sampleRav : SignedRAV :=
  { message := { allocation_id := 7, timestamp_ns := 1000, value_aggregate := 500 }
    signature := 77 }

def sampleRav2 : SignedRAV :=
  { message := { allocation_id := 7, timestamp_ns := 2000, value_aggregate := 600 }
    signature := 78 }

def sampleAdapter : RAVStorageAdapter :=
  { ravTable := [], local_rav_storage := none, allocation_id := 7 }

/-- C2 counterexample: on a fresh adapter (empty cache), `update_last_rav`
completes with `Ok(())`, yet an immediately following `last_rav` still
returns the stale cached value `none`, not `Some(rav)` — the cache is only
refreshed by the notification path. -/
theorem last_rav_after_update_counterexample :
    (update_last_rav sampleAdapter sampleRav).2 = Except.ok ()
    ∧ last_rav (update_last_rav sampleAdapter sampleRav).1
        = Except.ok (none : Option SignedRAV)
    ∧ last_rav (update_last_rav sampleAdapter sampleRav).1
        ≠ Except.ok (some sampleRav) := by
  refine ⟨rfl, rfl, ?_⟩
  intro h
  simp [last_rav, update_last_rav, sampleAdapter] at h

/-- C2 amended: `update_last_rav` durably upserts but leaves the in-memory
cache untouched, so `last_rav` right after the call still returns the
previous cached value; `last_rav` returns `Some(rav)` once the cache is
refreshed by `retrieve_last_rav` (the re-read the notification watcher
performs). -/
theorem last_rav_after_update_and_refresh (s : RAVStorageAdapter)
    (rav : SignedRAV) :
    (update_last_rav s rav).2 = Except.ok ()
    ∧ last_rav (update_last_rav s rav).1 = Except.ok s.local_rav_storage
    ∧ last_rav (retrieve_last_rav (update_last_rav s rav).1)
        = Except.ok (some rav) := by
  refine ⟨rfl, rfl, ?_⟩
  unfold retrieve_last_rav update_last_rav last_rav
  simp [ravTableUpsert_lookup]

/-! ### Watcher lemmas -/

theorem watcherLoop_append_error (pre rest : List RecvEvent)
    (s : RAVStorageAdapter) (hpre : ∀ e ∈ pre, e = RecvEvent.newRav) :
    watcherLoop (pre ++ RecvEvent.channelError :: rest) s
      = (pre.foldl (fun s _ => retrieve_last_rav s) s,
          WatcherOutcome.terminated) := by
  induction pre generalizing s with
  | nil => rfl
  | cons e tl ih =>
    have he : e = RecvEvent.newRav := hpre e (by simp)
    subst he
    simpa [watcherLoop] using
      ih (retrieve_last_rav s) (fun e' h' => hpre e' (by simp [h']))

/-- C5 counterexample: with connection and subscription succeeding, a single
failed `recv` makes the watcher task terminate instead of resubscribing. -/
theorem watcher_terminates_counterexample :
    rav_notifications_watcher true true [RecvEvent.channelError] sampleAdapter
      = (sampleAdapter, WatcherOutcome.terminated) := rfl

/-- C5 amended: the watcher task exits at the first failure of connecting,
subscribing, or receiving — there is no reconnect, backoff or
resubscription (the source marks this with a TODO); each notification
received before the failure triggers one cache refresh. -/
theorem watcher_exits_at_first_failure :
    (∀ (events : List RecvEvent) (s : RAVStorageAdapter),
      rav_notifications_watcher false true events s
        = (s, WatcherOutcome.terminated))
    ∧ (∀ (events : List RecvEvent) (s : RAVStorageAdapter),
      rav_notifications_watcher true false events s
        = (s, WatcherOutcome.terminated))
    ∧ (∀ (pre rest : List RecvEvent) (s : RAVStorageAdapter),
      (∀ e ∈ pre, e = RecvEvent.newRav) →
      rav_notifications_watcher true true
          (pre ++ RecvEvent.channelError :: rest) s
        = (pre.foldl (fun s _ => retrieve_last_rav s) s,
            WatcherOutcome.terminated)) := by
  refine ⟨fun _ _ => rfl, fun _ _ => rfl, ?_⟩
  intro pre rest s hpre
  exact watcherLoop_append_error pre rest s hpre

/-- Witness for the amended C5: one successful notification then a channel
failure terminates the task after a single cache refresh. -/
theorem watcher_exits_at_first_failure_witness :
    rav_notifications_watcher true true
        [RecvEvent.newRav, RecvEvent.channelError] sampleAdapter
      = ([RecvEvent.newRav].foldl (fun s _ => retrieve_last_rav s)
          sampleAdapter, WatcherOutcome.terminated) :=
  watcher_exits_at_first_failure.2.2 [RecvEvent.newRav] [] sampleAdapter
    (by simp)

/-- C6 counterexample: a successful `subtract_collateral` of 100 leaves the
reported available collateral at `u128::MAX` instead of decrementing it. -/
theorem subtract_collateral_no_decrement_counterexample :
    (subtract_collateral ⟨[]⟩ 5 100).2 = Except.ok ()
    ∧ get_available_collateral (subtract_collateral ⟨[]⟩ 5 100).1 5
        = Except.ok u128MAX
    ∧ u128MAX ≠ u128MAX - 100 := by
  refine ⟨rfl, rfl, ?_⟩
  decide

/-- C6 amended: the collateral adapter is an unimplemented mock —
`subtract_collateral` always returns `Ok(())` and leaves the state (and
hence every balance) unchanged, `get_available_collateral` always reports
the `u128::MAX` sentinel, and the adapter error type has no
`InsufficientCollateral` variant at all, so no call can fail with it. -/
theorem collateral_adapter_is_mock (s : CollateralAdapter)
    (gateway_id value : Nat) :
    subtract_collateral s gateway_id value = (s, Except.ok ())
    ∧ get_available_collateral s gateway_id = Except.ok u128MAX
    ∧ ∀ e : AdapterError, ∃ msg, e = AdapterError.adapterError msg := by
  refine ⟨rfl, rfl, ?_⟩
  intro e
  cases e with
  | adapterError msg => exact ⟨msg, rfl⟩

/-! ### Upsert lemmas for the RAV table -/

theorem ravTableUpsert_keys_nodup (t : RavTable) (k : Nat) (rav : SignedRAV)
    (h : (t.map Prod.fst).Nodup) :
    ((ravTableUpsert t k rav).map Prod.fst).Nodup := by
  unfold ravTableUpsert
  by_cases ha : t.any (fun p => p.1 == k) = true
  · rw [if_pos ha]
    have hfst : (Prod.fst ∘ fun p : Nat × SignedRAV =>
        if p.1 == k then (p.1, rav) else p) = Prod.fst := by
      funext p
      by_cases hp : (p.1 == k) = true <;> simp [Function.comp, hp]
    rw [List.map_map, hfst]
    exact h
  · rw [if_neg ha, List.map_append]
    rw [List.nodup_append]
    refine ⟨h, List.nodup_singleton k, ?_⟩
    intro a ha' hb
    rw [List.map_singleton, List.mem_singleton] at hb
    subst hb
    obtain ⟨p, hp, hpk⟩ := List.mem_map.mp ha'
    exact ha (List.any_eq_true.mpr ⟨p, hp, by simp [hpk]⟩)

theorem filter_map_replace (t : RavTable) (k : Nat) (rav : SignedRAV)
    (h : (t.map Prod.fst).Nodup) (ha : t.any (fun p => p.1 == k) = true) :
    (t.map fun p => if p.1 == k then (p.1, rav) else p).filter
        (fun p => p.1 == k) = [(k, rav)] := by
  induction t with
  | nil => simp at ha
  | cons hd tl ih =>
    obtain ⟨k1, v1⟩ := hd
    simp only [List.map_cons, List.nodup_cons] at h ⊢
    by_cases hk : k1 = k
    · subst hk
      rw [if_pos (by simp), List.filter_cons_of_pos (by simp)]
      have htl : (tl.map fun p =>
          if p.1 == k1 then (p.1, rav) else p).filter
            (fun p => p.1 == k1) = [] := by
        rw [List.filter_eq_nil_iff]
        intro p hp
        obtain ⟨q, hq, rfl⟩ := List.mem_map.mp hp
        have hqk : q.1 ≠ k1 := fun hqk =>
          h.1 (hqk ▸ List.mem_map_of_mem Prod.fst hq)
        rw [if_neg (by simpa using hqk)]
        simpa using hqk
      rw [htl]
    · rw [if_neg (by simpa using hk),
        List.filter_cons_of_neg (by simpa using hk)]
      apply ih h.2
      simp only [List.any_cons, Bool.or_eq_true] at ha
      rcases ha with ha | ha
      · exact absurd (by simpa using ha) hk
      · exact ha

/-- After the upsert, the table holds exactly one row for the key: the new
RAV. -/
theorem ravTableUpsert_filter_key (t : RavTable) (k : Nat) (rav : SignedRAV)
    (h : (t.map Prod.fst).Nodup) :
    (ravTableUpsert t k rav).filter (fun p => p.1 == k) = [(k, rav)] := by
  unfold ravTableUpsert
  by_cases ha : t.any (fun p => p.1 == k) = true
  · rw [if_pos ha]
    exact filter_map_replace t k rav h ha
  · rw [if_neg ha, List.filter_append]
    have h1 : t.filter (fun p => p.1 == k) = [] := by
      rw [List.filter_eq_nil_iff]
      intro p hp hpk
      exact ha (List.any_eq_true.mpr ⟨p, hp, hpk⟩)
    rw [h1]
    simp

theorem applyUpdates_cons_spec (tl : List SignedRAV) :
    ∀ (s : RAVStorageAdapter) (r : SignedRAV),
      (s.ravTable.map Prod.fst).Nodup →
      (applyUpdates s (r :: tl)).ravTable.filter
          (fun p => p.1 == s.allocation_id)
        = [(s.allocation_id, (r :: tl).getLast (List.cons_ne_nil r tl))]
      ∧ ((applyUpdates s (r :: tl)).ravTable.map Prod.fst).Nodup := by
  induction tl with
  | nil =>
    intro s r h
    exact ⟨ravTableUpsert_filter_key s.ravTable s.allocation_id r h,
      ravTableUpsert_keys_nodup s.ravTable s.allocation_id r h⟩
  | cons r₂ tl₂ ih =>
    intro s r h
    have h' := ih { s with
        ravTable := ravTableUpsert s.ravTable s.allocation_id r } r₂
      (ravTableUpsert_keys_nodup s.ravTable s.allocation_id r h)
    rw [List.getLast_cons (List.cons_ne_nil r₂ tl₂)]
    exact h'

/-- C7: after N ≥ 1 sequential `update_last_rav` calls the durable RAV table
holds exactly one row for the adapter's allocation, its value being the last
RAV passed; the upsert never accumulates rows (key uniqueness is
preserved). -/
theorem update_last_rav_exactly_one_row (s : RAVStorageAdapter)
    (ravs : List SignedRAV) (hne : ravs ≠ [])
    (hkeys : (s.ravTable.map Prod.fst).Nodup) :
    (applyUpdates s ravs).ravTable.filter (fun p => p.1 == s.allocation_id)
      = [(s.allocation_id, ravs.getLast hne)]
    ∧ ((applyUpdates s ravs).ravTable.map Prod.fst).Nodup := by
  cases ravs with
  | nil => exact absurd rfl hne
  | cons r tl => exact applyUpdates_cons_spec tl s r hkeys

/-- Witness for C7: two sequential updates on a fresh adapter leave exactly
one row, holding the second RAV. -/
theorem update_last_rav_exactly_one_row_witness :
    ([sampleRav, sampleRav2] ≠ ([] : List SignedRAV))
    ∧ (sampleAdapter.ravTable.map Prod.fst).Nodup
    ∧ (applyUpdates sampleAdapter [sampleRav, sampleRav2]).ravTable.filter
        (fun p => p.1 == sampleAdapter.allocation_id)
        = [(sampleAdapter.allocation_id,
            [sampleRav, sampleRav2].getLast (by simp))] :=
  ⟨by simp, by simp [sampleAdapter],
    (update_last_rav_exactly_one_row sampleAdapter [sampleRav, sampleRav2]
      (by simp) (by simp [sampleAdapter])).1⟩

/-- C8 counterexample: updating a missing id fails, but with the single
generic `AdapterError` string variant wrapping sqlx's `RowNotFound` display
message — a generic storage failure carrying the same message maps to the
very same error value, so no `NotFound` case is distinguished from generic
storage failure. -/
theorem update_receipt_not_found_counterexample :
    update_receipt_by_id ⟨[], 1⟩ 123456 (sampleReceived 7 0 42 124 10 0)
      = Except.error (AdapterError.adapterError
          (SqlxError.toMessage SqlxError.rowNotFound))
    ∧ adapterErrorFromSqlx (SqlxError.other
          (SqlxError.toMessage SqlxError.rowNotFound))
        = adapterErrorFromSqlx SqlxError.rowNotFound :=
  ⟨rfl, rfl⟩

/-- C8 amended: `update_receipt_by_id` fails when no stored receipt has the
identifier — via the generic single-variant `AdapterError` carrying the
stringified sqlx `RowNotFound`, not a distinct `NotFound` error case — and
otherwise replaces only the addressed row's stored payload, leaving every
other stored receipt unchanged. -/
theorem update_receipt_by_id_spec (table : ReceiptsTable) (receipt_id : Nat)
    (receipt : ReceivedReceipt) :
    ((∀ row ∈ table.rows, row.id ≠ receipt_id) →
      update_receipt_by_id table receipt_id receipt
        = Except.error (AdapterError.adapterError
            (SqlxError.toMessage SqlxError.rowNotFound)))
    ∧ (∀ row ∈ table.rows, row.id = receipt_id →
      update_receipt_by_id table receipt_id receipt
        = Except.ok { table with
            rows := table.rows.map fun r =>
              if r.id == receipt_id then
                { r with received_receipt := receipt }
              else r }) := by
  constructor
  · intro h
    unfold update_receipt_by_id
    have hc : ¬ (table.rows.any (fun row => row.id == receipt_id) = true) := by
      intro hc
      obtain ⟨row, hm, heq⟩ := List.any_eq_true.mp hc
      exact h row hm (by simpa using heq)
    rw [if_neg hc]
    rfl
  · intro row hm hid
    unfold update_receipt_by_id
    rw [if_pos (List.any_eq_true.mpr ⟨row, hm, by simp [hid]⟩)]

/-- Witness for the amended C8: updating the second sample row in place
succeeds and rewrites only that row's payload. -/
theorem update_receipt_by_id_spec_witness :
    update_receipt_by_id sampleTable 2 (sampleReceived 7 3 60 130 13 3)
      = Except.ok { sampleTable with
          rows := sampleTable.rows.map fun r =>
            if r.id == 2 then
              { r with received_receipt := sampleReceived 7 3 60 130 13 3 }
            else r } :=
  (update_receipt_by_id_spec sampleTable 2 (sampleReceived 7 3 60 130 13 3)).2
    { id := 2, signature := 11, allocation_id := 9, timestamp_ns := 45,
      received_receipt := sampleReceived 9 1 45 125 11 1 }
    (by simp [sampleTable]) rfl

/-- C9: `remove_receipts_in_timestamp_range` deletes every stored row whose
`timestamp_ns` lies in the range — its WHERE clause has no allocation
condition, so rows of every allocation are removed, including those of
allocations other than the adapter's — and keeps every out-of-range row;
`retrieve_receipts_in_timestamp_range` on the same adapter only ever
returns rows whose `allocation_id` equals the adapter's. -/
theorem remove_ignores_allocation_retrieve_filters_it (allocation_id : Nat)
    (table : ReceiptsTable) (range : TimestampRange) :
    (∀ row ∈ table.rows, specIntervalContains range row.timestamp_ns →
      row ∉ (remove_receipts_in_timestamp_range table range).rows)
    ∧ (∀ row ∈ table.rows, ¬ specIntervalContains range row.timestamp_ns →
      row ∈ (remove_receipts_in_timestamp_range table range).rows)
    ∧ (∀ p ∈ retrieve_receipts_in_timestamp_range allocation_id table range,
      ∃ row ∈ table.rows, row.allocation_id = allocation_id
        ∧ p = (row.id, row.received_receipt)) := by
  refine ⟨?_, ?_, ?_⟩
  · intro row hm hin hmem
    unfold remove_receipts_in_timestamp_range at hmem
    rw [List.mem_filter] at hmem
    have hc := (pgContains_iff_specIntervalContains range
      row.timestamp_ns).mpr hin
    rw [hc] at hmem
    exact absurd hmem.2 (by simp)
  · intro row hm hnin
    unfold remove_receipts_in_timestamp_range
    rw [List.mem_filter]
    refine ⟨hm, ?_⟩
    have hc : (rangebounds_to_pgrange range).containsPoint
        (Int.ofNat row.timestamp_ns) = false := by
      rw [Bool.eq_false_iff]
      intro hc
      exact hnin
        ((pgContains_iff_specIntervalContains range row.timestamp_ns).mp hc)
    rw [hc]
    rfl
  · intro p hp
    unfold retrieve_receipts_in_timestamp_range at hp
    rw [List.mem_map] at hp
    obtain ⟨row, hmem, rfl⟩ := hp
    rw [List.mem_filter] at hmem
    have halloc := hmem.2
    simp only [Bool.and_eq_true, beq_iff_eq] at halloc
    exact ⟨row, hmem.1, halloc.1, rfl⟩

/-- Witness for C9: the sample row stored under allocation 9 and timestamp
45 is deleted by a purge over `[45, 51)` issued from the allocation-7
adapter. -/
theorem remove_ignores_allocation_witness :
    ({ id := 2, signature := 11, allocation_id := 9, timestamp_ns := 45,
        received_receipt := sampleReceived 9 1 45 125 11 1 } : ReceiptRow)
      ∉ (remove_receipts_in_timestamp_range sampleTable
          ⟨.included 45, .excluded 51⟩).rows :=
  (remove_ignores_allocation_retrieve_filters_it 7 sampleTable
      ⟨.included 45, .excluded 51⟩).1
    { id := 2, signature := 11, allocation_id := 9, timestamp_ns := 45,
      received_receipt := sampleReceived 9 1 45 125 11 1 }
    (by simp [sampleTable]) (by decide)

/-- C10: a successful `update_receipt_by_id` rewrites only the serialized
payload column of the addressed row: the separately stored `id`,
`signature`, `allocation_id` and `timestamp_ns` columns of every row keep
their original values (even when the replacement receipt's own signature or
timestamp differs), so `is_unique` signature checks and the id sets of
timestamp-range queries are unchanged, while the addressed row now carries
the replacement payload. -/
theorem update_receipt_replaces_only_payload (table : ReceiptsTable)
    (receipt_id : Nat) (receipt : ReceivedReceipt) (t' : ReceiptsTable)
    (h : update_receipt_by_id table receipt_id receipt = Except.ok t') :
    (t'.rows.map fun row =>
        (row.id, row.signature, row.allocation_id, row.timestamp_ns))
      = (table.rows.map fun row =>
          (row.id, row.signature, row.allocation_id, row.timestamp_ns))
    ∧ (∀ (probe : EIP712SignedMessage Receipt) (pid : Nat),
        is_unique t' probe pid = is_unique table probe pid)
    ∧ (∀ (alloc : Nat) (range : TimestampRange),
        (retrieve_receipts_in_timestamp_range alloc t' range).map Prod.fst
          = (retrieve_receipts_in_timestamp_range alloc table range).map
              Prod.fst)
    ∧ (∀ row ∈ table.rows, row.id = receipt_id →
        ({ row with received_receipt := receipt } : ReceiptRow) ∈ t'.rows) := by
  have hrows : t'.rows = table.rows.map fun r =>
      if r.id == receipt_id then { r with received_receipt := receipt }
      else r := by
    unfold update_receipt_by_id at h
    by_cases ha : table.rows.any (fun row => row.id == receipt_id) = true
    · rw [if_pos ha] at h
      injection h with h'
      rw [← h']
    · rw [if_neg ha] at h
      simp at h
  refine ⟨?_, ?_, ?_, ?_⟩
  · have hcols : ((fun row : ReceiptRow =>
        (row.id, row.signature, row.allocation_id, row.timestamp_ns)) ∘
          fun r => if r.id == receipt_id then
            { r with received_receipt := receipt } else r)
        = fun row : ReceiptRow =>
            (row.id, row.signature, row.allocation_id, row.timestamp_ns) := by
      funext r
      by_cases hr : (r.id == receipt_id) = true <;> simp [Function.comp, hr]
    rw [hrows, List.map_map, hcols]
  · intro probe pid
    unfold is_unique
    have hpred : ((fun row : ReceiptRow =>
        row.id != pid && row.signature == probe.signature) ∘
          fun r => if r.id == receipt_id then
            { r with received_receipt := receipt } else r)
        = fun row : ReceiptRow =>
            row.id != pid && row.signature == probe.signature := by
      funext r
      by_cases hr : (r.id == receipt_id) = true <;> simp [Function.comp, hr]
    rw [hrows, List.find?_map, hpred]
    cases table.rows.find? fun row =>
        row.id != pid && row.signature == probe.signature <;> rfl
  · intro alloc range
    unfold retrieve_receipts_in_timestamp_range
    have hpred : ((fun row : ReceiptRow =>
        row.allocation_id == alloc
          && (rangebounds_to_pgrange range).containsPoint
               (Int.ofNat row.timestamp_ns)) ∘
          fun r => if r.id == receipt_id then
            { r with received_receipt := receipt } else r)
        = fun row : ReceiptRow =>
            row.allocation_id == alloc
              && (rangebounds_to_pgrange range).containsPoint
                   (Int.ofNat row.timestamp_ns) := by
      funext r
      by_cases hr : (r.id == receipt_id) = true <;> simp [Function.comp, hr]
    rw [hrows, List.filter_map, hpred, List.map_map, List.map_map]
    have hout : ((Prod.fst ∘ fun row : ReceiptRow =>
        (row.id, row.received_receipt)) ∘
          fun r : ReceiptRow => if r.id == receipt_id then
            { r with received_receipt := receipt } else r)
        = Prod.fst ∘ fun row : ReceiptRow => (row.id, row.received_receipt) := by
      funext r
      by_cases hr : (r.id == receipt_id) = true <;> simp [Function.comp, hr]
    rw [hout, List.map_map]
  · intro row hm hid
    rw [hrows]
    refine List.mem_map.mpr ⟨row, hm, ?_⟩
    simp [hid]

/-- Witness for C10: replacing the second sample row's payload with a
receipt whose signature (42) and timestamp (99) differ leaves the indexed
columns of the table untouched. -/
theorem update_receipt_replaces_only_payload_witness :
    (({ sampleTable with
          rows := sampleTable.rows.map fun r =>
            if r.id == 2 then
              { r with received_receipt := sampleReceived 9 9 99 999 42 9 }
            else r } : ReceiptsTable).rows.map fun row =>
        (row.id, row.signature, row.allocation_id, row.timestamp_ns))
      = (sampleTable.rows.map fun row =>
          (row.id, row.signature, row.allocation_id, row.timestamp_ns)) :=
  (update_receipt_replaces_only_payload sampleTable 2
      (sampleReceived 9 9 99 999 42 9)
      { sampleTable with
        rows := sampleTable.rows.map fun r =>
          if r.id == 2 then
            { r with received_receipt := sampleReceived 9 9 99 999 42 9 }
          else r }
      (by rfl)).1

end Tap
